import Mathlib

/-!
Verification development for the Backlog Propagation Engine
(`sim-service/backlog_propagation.py`).

The Python engine is embedded shallowly:

* Python `date` values become `Int` day numbers; `date` subtraction and
  `timedelta(days = n)` addition become `Int` subtraction and addition.
* Python `float` values become `ℚ`.  No property below depends on binary
  floating-point rounding.
* the pseudo-random draws (`random.random`, `random.choices`,
  `random.randint`) become oracle functions collected in `Rand`, indexed by
  the simulated day and the position of the draw within that day.  A
  universally quantified `Rand` covers every realizable stream of draws.
* items are Python objects mutated in place; stages that mutate through an
  aliased sorted copy of the live list are modelled by tagging each item
  with its position (`List.enum`) so that object identity is preserved.
* the write-only `event_log` and the wall-clock `execution_duration_ms`
  field are not modelled; nothing observable depends on them.  The
  wall-clock `date.today()` used by decay is an oracle field `Rand.today`.
-/

namespace BacklogSim

/-- `Priority` enumeration from the source. -/
inductive Priority
  | low
  | medium
  | high
  | critical
deriving DecidableEq, Repr

/-- `ItemStatus` enumeration from the source. -/
inductive ItemStatus
  | pending
  | in_progress
  | completed
  | deferred
  | escalated
  | rejected
  | outsourced
deriving DecidableEq, Repr

/-- `Complexity` enumeration from the source. -/
inductive Complexity
  | simple
  | moderate
  | complex
deriving DecidableEq, Repr

/-- `OverflowStrategy` enumeration from the source. -/
inductive OverflowStrategy
  | reject
  | defer
  | escalate
  | outsource
deriving DecidableEq, Repr

/-- `BacklogPropagationProfile` pydantic model with its defaults. -/
structure BacklogPropagationProfile where
  propagation_rate : ℚ := 1
  decay_rate : ℚ := 0
  max_backlog_capacity : Option Int := none
  aging_enabled : Bool := true
  aging_threshold_days : Int := 3
  overflow_strategy : OverflowStrategy := .reject
  sla_breach_threshold_days : Int := 1
  sla_penalty_per_day : ℚ := 100
  customer_satisfaction_impact : ℚ := -(5/100)
  recovery_rate_multiplier : ℚ := 120/100
  recovery_priority_boost : Int := 1
deriving Repr

/-- `BacklogItem` pydantic model.  Dates are `Int` day numbers. -/
structure BacklogItem where
  id : String
  item_type : String
  priority : Priority
  original_priority : Priority
  complexity : Complexity := .moderate
  estimated_effort_minutes : Nat := 30
  created_date : Int
  due_date : Option Int := none
  completed_date : Option Int := none
  status : ItemStatus := .pending
  sla_breached : Bool := false
  days_in_backlog : Int := 0
  propagation_count : Int := 0
  aging_date : Option Int := none
deriving DecidableEq, Repr

/-- `DailyCapacity` pydantic model. -/
structure DailyCapacity where
  date : Int
  total_capacity_hours : ℚ
  backlog_capacity_hours : ℚ
  new_work_capacity_hours : ℚ
  staff_count : Int := 10
  productivity_modifier : ℚ := 1
  max_items_per_day : Option Int := none
  max_complex_items_per_day : Option Int := none
deriving Repr

/-- `DailyDemand` pydantic model.  Python `Dict` iteration order is
insertion order, so the dictionaries become association lists. -/
structure DailyDemand where
  date : Int
  new_items_by_priority : List (Priority × Int)
  new_items_by_complexity : List (Complexity × Int)
  total_estimated_effort_hours : ℚ
deriving Repr

/-- Age buckets used by `_create_snapshot`. -/
inductive AgeBucket
  | b0_1
  | b1_3
  | b4_7
  | b8_14
  | b15
deriving DecidableEq, Repr

/-- `BacklogSnapshot` pydantic model.  The two count dictionaries are
modelled as total count functions (a `defaultdict(int)` read only through
totalled counts). -/
structure BacklogSnapshot where
  snapshot_date : Int
  total_items : Nat
  items_by_priority : Priority → Nat
  items_by_age : AgeBucket → Nat
  total_estimated_effort_hours : ℚ
  avg_age_days : ℚ
  oldest_item_age_days : Int
  sla_breached_count : Nat
  sla_at_risk_count : Nat
  sla_compliance_rate : ℚ
  capacity_utilization : ℚ
  overflow_count : Int
  items_propagated : Nat
  items_aged_up : Nat
  items_resolved : Nat
  new_items : Nat
  estimated_recovery_days : ℚ
  customer_impact_score : ℚ
  financial_impact : ℚ

/-- `BacklogPropagationRequest` pydantic model. -/
structure BacklogPropagationRequest where
  organization_id : String
  start_date : Int
  end_date : Int
  profile : BacklogPropagationProfile := {}
  initial_backlog_items : List BacklogItem := []
  daily_capacities : List DailyCapacity
  daily_demands : List DailyDemand
  seed : Option Int := none
  enable_priority_aging : Bool := true
  enable_sla_tracking : Bool := true

/-- The `summary_stats` dictionary built at the end of
`simulate_propagation`, as a record of its ten keys. -/
structure SummaryStats where
  total_items_processed : Nat
  total_new_items : Nat
  net_backlog_change : Int
  avg_daily_backlog : ℚ
  max_daily_backlog : Int
  avg_sla_compliance_rate : ℚ
  total_sla_breaches : Nat
  avg_recovery_days : ℚ
  total_financial_impact : ℚ
  final_backlog_size : Nat

/-- `BacklogPropagationResponse` (without the wall-clock
`execution_duration_ms`). -/
structure BacklogPropagationResponse where
  organization_id : String
  start_date : Int
  end_date : Int
  total_days : Int
  daily_snapshots : List BacklogSnapshot
  final_backlog_items : List BacklogItem
  final_backlog_count : Nat
  summary_stats : SummaryStats
  seed_used : Option Int

/-- Oracles standing for the engine's randomness and wall clock.  Each
draw is indexed by the simulated day and the position of the draw inside
that day, so a universally quantified `Rand` covers every stream the
seeded generators can produce. -/
structure Rand where
  decayVal : Int → Nat → ℚ
  complexityOf : Int → Nat → Complexity
  effortRaw : Int → Nat → Nat
  today : Int

/-- Python truthiness of an `Optional[int]`: `None` and `0` are falsy. -/
def pyTruthy : Option Int → Bool
  | none => false
  | some n => n != 0

/-- Python slice `l[:n]`, including the negative-index convention. -/
def pySliceTo (n : Int) (l : List α) : List α :=
  if 0 ≤ n then l.take n.toNat else l.take ((l.length : Int) + n).toNat

/-- Python slice `l[n:]`, including the negative-index convention. -/
def pySliceFrom (n : Int) (l : List α) : List α :=
  if 0 ≤ n then l.drop n.toNat else l.drop ((l.length : Int) + n).toNat

/-- Lookup in a dict built by `{x.key: x for x in l}`: the last entry with
the wanted key wins. -/
def dictLookup (key : α → Int) (l : List α) (d : Int) : Option α :=
  l.foldl (fun acc x => if key x = d then some x else acc) none

/-- Python `max(l, default = d)`. -/
def pyMaxD (d : Int) (l : List Int) : Int :=
  match l.max? with
  | none => d
  | some m => m

/-- The single failure mode of the engine that the claims touch:
`max()` over an empty sequence raises `ValueError`. -/
inductive SimError
  | emptyMax
deriving DecidableEq, Repr

/-- Python `max(l)` (raises on an empty list). -/
def pyMaxE (l : List Int) : Except SimError Int :=
  match l.max? with
  | none => .error .emptyMax
  | some m => .ok m

/-- `np.mean`.  On an empty list NumPy yields NaN without raising; the
engine aborts at `max()` before that value is ever observable, so the
empty case is given the junk value `0`. -/
def npMean (l : List ℚ) : ℚ :=
  if l.isEmpty then 0 else l.sum / l.length

/-- `_get_priority_order`: numeric rank used by every sort.  The
dictionary covers all four members, so the Python fallback default `2` is
unreachable. -/
def get_priority_order : Priority → Nat
  | .low => 1
  | .medium => 2
  | .high => 3
  | .critical => 4

/-- `_upgrade_priority`. -/
def upgrade_priority : Priority → Priority
  | .low => .medium
  | .medium => .high
  | .high => .critical
  | .critical => .critical

/-- Lexicographic order on Python 2-tuples of ints. -/
def lexLe (p q : Int × Int) : Prop :=
  p.1 < q.1 ∨ (p.1 = q.1 ∧ p.2 ≤ q.2)

instance : DecidableRel lexLe := fun p q =>
  inferInstanceAs (Decidable (p.1 < q.1 ∨ (p.1 = q.1 ∧ p.2 ≤ q.2)))

/-- Comparator of `sorted(l, key = f)` (stable ascending). -/
def keyRelAsc (f : α → Int × Int) (a b : α) : Prop :=
  lexLe (f a) (f b)

/-- Comparator of `sorted(l, key = f, reverse = True)` (stable
descending): `a` may precede `b` when the key of `a` is at least the key
of `b`. -/
def keyRelDesc (f : α → Int × Int) (a b : α) : Prop :=
  lexLe (f b) (f a)

instance (f : α → Int × Int) : DecidableRel (keyRelAsc f) := fun a b =>
  inferInstanceAs (Decidable (lexLe (f a) (f b)))

instance (f : α → Int × Int) : DecidableRel (keyRelDesc f) := fun a b =>
  inferInstanceAs (Decidable (lexLe (f b) (f a)))

instance : IsTotal (Int × Int) lexLe :=
  ⟨by
    intro p q
    unfold lexLe
    rcases lt_trichotomy p.1 q.1 with h | h | h
    · exact Or.inl (Or.inl h)
    · rcases le_total p.2 q.2 with h2 | h2
      · exact Or.inl (Or.inr ⟨h, h2⟩)
      · exact Or.inr (Or.inr ⟨h.symm, h2⟩)
    · exact Or.inr (Or.inl h)⟩

instance : IsTrans (Int × Int) lexLe :=
  ⟨by
    intro p q r hpq hqr
    unfold lexLe at *
    rcases hpq with h | ⟨he, h2⟩
    · rcases hqr with h3 | ⟨he3, _⟩
      · exact Or.inl (h.trans h3)
      · exact Or.inl (he3 ▸ h)
    · rcases hqr with h3 | ⟨he3, h4⟩
      · exact Or.inl (he ▸ h3)
      · exact Or.inr ⟨he.trans he3, h2.trans h4⟩⟩

instance (f : α → Int × Int) : IsTotal α (keyRelAsc f) :=
  ⟨fun a b => IsTotal.total (r := lexLe) (f a) (f b)⟩

instance (f : α → Int × Int) : IsTrans α (keyRelAsc f) :=
  ⟨fun _ _ _ h h2 => Trans.trans (r := lexLe) (s := lexLe) h h2⟩

instance (f : α → Int × Int) : IsTotal α (keyRelDesc f) :=
  ⟨fun a b => IsTotal.total (r := lexLe) (f b) (f a)⟩

instance (f : α → Int × Int) : IsTrans α (keyRelDesc f) :=
  ⟨fun _ _ _ h h2 => Trans.trans (r := lexLe) (s := lexLe) h2 h⟩

/-- Sort key of `_resolve_items`:
`(-self._get_priority_order(x.priority), x.days_in_backlog)`. -/
def resolve_sort_key (x : BacklogItem) : Int × Int :=
  (-(get_priority_order x.priority : Int), x.days_in_backlog)

/-- The sorted pass of `_resolve_items`: `sorted(items, key =
resolve_sort_key, reverse = True)`, i.e. a stable sort that puts the
largest key first.  `List.insertionSort` with `keyRelDesc` realizes
exactly this stable order. -/
def resolveSorted (items : List BacklogItem) : List BacklogItem :=
  items.insertionSort (keyRelDesc resolve_sort_key)

/-- The Python condition `cap and processed >= cap` guarding the two
per-day caps in `_resolve_items` (`Optional[int]` truthiness: a cap of
`0` is falsy and therefore never reached). -/
def capReached (cap : Option Int) (processed : Nat) : Bool :=
  match cap with
  | none => false
  | some m => m != 0 && decide ((m : Int) ≤ (processed : Nat))

/-- Loop-carried state of the resolution pass in `_resolve_items`. -/
structure ResolveAcc where
  resolved_items : List BacklogItem
  remaining_items : List BacklogItem
  available_hours : ℚ
  items_processed : Nat
  complex_items_processed : Nat
deriving Repr

/-- One iteration of the `for item in sorted_items` loop of
`_resolve_items`. -/
def resolve_step (capacity : DailyCapacity) (current_date : Int)
    (acc : ResolveAcc) (item : BacklogItem) : ResolveAcc :=
  let effort_hours : ℚ := (item.estimated_effort_minutes : ℚ) / 60
  if effort_hours > acc.available_hours then
    { acc with remaining_items := acc.remaining_items ++ [item] }
  else if capReached capacity.max_items_per_day acc.items_processed then
    { acc with remaining_items := acc.remaining_items ++ [item] }
  else if item.complexity == Complexity.complex &&
      capReached capacity.max_complex_items_per_day acc.complex_items_processed then
    { acc with remaining_items := acc.remaining_items ++ [item] }
  else
    { acc with
      resolved_items := acc.resolved_items ++
        [{ item with status := .completed, completed_date := some current_date }],
      available_hours := acc.available_hours - effort_hours,
      items_processed := acc.items_processed + 1,
      complex_items_processed := acc.complex_items_processed +
        (if item.complexity = .complex then 1 else 0) }

/-- `_resolve_items`, kept as its full loop state. -/
def resolve_items_full (items : List BacklogItem) (capacity : DailyCapacity)
    (current_date : Int) : ResolveAcc :=
  (resolveSorted items).foldl (resolve_step capacity current_date)
    ⟨[], [], capacity.backlog_capacity_hours * capacity.productivity_modifier, 0, 0⟩

/-- `_resolve_items` as returned by the source: `(remaining_items,
len(resolved_items), hours_used)`. -/
def resolve_items (items : List BacklogItem) (capacity : DailyCapacity)
    (current_date : Int) : List BacklogItem × Nat × ℚ :=
  let acc := resolve_items_full items capacity current_date
  (acc.remaining_items, acc.resolved_items.length,
    capacity.backlog_capacity_hours * capacity.productivity_modifier - acc.available_hours)

/-- Sort key of the `reject` branch of `_handle_overflow`:
`(self._get_priority_order(x.priority), -x.days_in_backlog)`. -/
def reject_sort_key (x : BacklogItem) : Int × Int :=
  ((get_priority_order x.priority : Int), -x.days_in_backlog)

/-- Ascending sort key used by the `defer`, `escalate` and `outsource`
branches of `_handle_overflow`, lifted to position-tagged items (the tag
is the Python object identity and is ignored by the comparator, which
together with stability of `sorted` matches the Python order exactly). -/
def priority_sort_key (p : Nat × BacklogItem) : Int × Int :=
  ((get_priority_order p.2.priority : Int), 0)

/-- `sorted(items, key = lambda x: self._get_priority_order(x.priority))`
on the position-tagged live list. -/
def prioritySorted (items : List BacklogItem) : List (Nat × BacklogItem) :=
  items.enum.insertionSort (keyRelAsc priority_sort_key)

/-- In-place mutation of the `defer` branch, applied to the objects whose
positions are in `idx`: `status = deferred`, `due_date` pushed out 7
days. -/
def defer_mark (current_date : Int) (idx : List Nat) (p : Nat × BacklogItem) :
    BacklogItem :=
  if p.1 ∈ idx then
    { p.2 with status := .deferred, due_date := some (current_date + 7) }
  else p.2

/-- In-place mutation of the `escalate` branch: priority upgraded one
level, `status = escalated`. -/
def escalate_mark (idx : List Nat) (p : Nat × BacklogItem) : BacklogItem :=
  if p.1 ∈ idx then
    { p.2 with priority := upgrade_priority p.2.priority, status := .escalated }
  else p.2

/-- In-place mutation of the `outsource` branch: `status = outsourced`. -/
def outsource_mark (idx : List Nat) (p : Nat × BacklogItem) : BacklogItem :=
  if p.1 ∈ idx then { p.2 with status := .outsourced } else p.2

/-- `_handle_overflow`, returning `(kept_or_mutated_live_list,
overflow_count)` exactly as the source does.  The three mutate-in-place
branches are modelled through position tags. -/
def handle_overflow (items : List BacklogItem) (max_capacity : Option Int)
    (strategy : OverflowStrategy) (current_date : Int) :
    List BacklogItem × Int :=
  match max_capacity with
  | none => (items, 0)
  | some maxCap =>
    if (items.length : Int) ≤ maxCap then (items, 0)
    else
      let overflow_count : Int := (items.length : Int) - maxCap
      match strategy with
      | .reject =>
        let sorted_items := items.insertionSort (keyRelDesc reject_sort_key)
        (pySliceTo maxCap sorted_items, overflow_count)
      | .defer =>
        let idx := (pySliceTo overflow_count (prioritySorted items)).map Prod.fst
        (items.enum.map (defer_mark current_date idx), overflow_count)
      | .escalate =>
        let idx := (pySliceTo overflow_count (prioritySorted items)).map Prod.fst
        (items.enum.map (escalate_mark idx), overflow_count)
      | .outsource =>
        let idx := (pySliceTo overflow_count (prioritySorted items)).map Prod.fst
        ((items.enum.map (outsource_mark idx)).filter
          (fun x => x.status != ItemStatus.outsourced), overflow_count)

/-- The items `_handle_overflow` drops from the live list (with the
status the branch wrote into them), as an observer of the same
computation: the `reject` remainder and the `outsource` marked prefix;
`defer` and `escalate` drop nothing. -/
def handle_overflow_removed (items : List BacklogItem) (max_capacity : Option Int)
    (strategy : OverflowStrategy) : List BacklogItem :=
  match max_capacity with
  | none => []
  | some maxCap =>
    if (items.length : Int) ≤ maxCap then []
    else
      let overflow_count : Int := (items.length : Int) - maxCap
      match strategy with
      | .reject =>
        let sorted_items := items.insertionSort (keyRelDesc reject_sort_key)
        (pySliceFrom maxCap sorted_items).map (fun x => { x with status := .rejected })
      | .defer => []
      | .escalate => []
      | .outsource =>
        (pySliceTo overflow_count (prioritySorted items)).map
          (fun p => { p.2 with status := .outsourced })

/-- The breach condition of `_check_sla_breaches`: `item.due_date and
current_date > item.due_date and not item.sla_breached` (a `date` is
always truthy). -/
def sla_breach_cond (current_date : Int) (item : BacklogItem) : Bool :=
  match item.due_date with
  | some dd => decide (dd < current_date) && !item.sla_breached
  | none => false

/-- The per-item effect of `_check_sla_breaches`. -/
def check_sla_single (current_date : Int) (item : BacklogItem) : BacklogItem :=
  if sla_breach_cond current_date item then { item with sla_breached := true } else item

/-- `_check_sla_breaches`: flags every breaching item and returns the
mutated list together with the number of newly flagged items. -/
def check_sla_breaches (items : List BacklogItem) (current_date : Int) :
    List BacklogItem × Nat :=
  (items.map (check_sla_single current_date), items.countP (sla_breach_cond current_date))

/-- `_apply_aging`. -/
def apply_aging (item : BacklogItem) (current_date : Int)
    (profile : BacklogPropagationProfile) : BacklogItem × Bool :=
  if !profile.aging_enabled then (item, false)
  else if item.priority = .critical then (item, false)
  else
    let days_since_aging := current_date - (item.aging_date.getD item.created_date)
    if days_since_aging ≥ profile.aging_threshold_days then
      ({ item with priority := upgrade_priority item.priority,
                   aging_date := some current_date }, true)
    else (item, false)

/-- Step 1 of the daily loop for one item: `item.days_in_backlog += 1`
followed by `_apply_aging` when `enable_priority_aging` is set. -/
def age_item (req : BacklogPropagationRequest) (current_date : Int)
    (item : BacklogItem) : BacklogItem × Bool :=
  let item := { item with days_in_backlog := item.days_in_backlog + 1 }
  if req.enable_priority_aging then apply_aging item current_date req.profile
  else (item, false)

/-- `_apply_decay`, returning `(remaining_items, decayed_items)`.  The
`random.random()` draw of the item at position `i` of the list is the
oracle value `rand.decayVal current_date i`; a decayed item gets
`completed_date = date.today()`, i.e. the wall clock `rand.today`. -/
def apply_decay (rand : Rand) (current_date : Int) (items : List BacklogItem)
    (decay_rate : ℚ) : List BacklogItem × List BacklogItem :=
  if decay_rate ≤ 0 then (items, [])
  else
    (items.enum.filterMap (fun p =>
        if rand.decayVal current_date p.1 ≥ decay_rate then some p.2 else none),
     items.enum.filterMap (fun p =>
        if rand.decayVal current_date p.1 ≥ decay_rate then none
        else some { p.2 with status := .completed, completed_date := some rand.today }))

/-- Effort ranges of `_process_new_items`. -/
def effort_range : Complexity → Nat × Nat
  | .simple => (15, 30)
  | .moderate => (30, 60)
  | .complex => (60, 120)

/-- `_generate_item_id` for counter value `n` (after the increment):
`f"ITEM-{n:06d}"`. -/
def generate_item_id (n : Nat) : String :=
  let s := toString n
  "ITEM-" ++ String.mk (List.replicate (6 - s.length) '0') ++ s

/-- One freshly generated item of `_process_new_items`: `idNum` is the
item counter after its increment, `k` the position of the item among the
day's creations (indexing the complexity and effort draws). -/
def mk_new_item (rand : Rand) (current_date : Int)
    (profile : BacklogPropagationProfile) (idNum : Nat) (k : Nat)
    (priority : Priority) : BacklogItem :=
  let complexity := rand.complexityOf current_date k
  let r := effort_range complexity
  let effort := r.1 + rand.effortRaw current_date k % (r.2 - r.1 + 1)
  let due_date := if profile.sla_breach_threshold_days > 0
    then some (current_date + profile.sla_breach_threshold_days) else none
  { id := generate_item_id idNum
    item_type := "work_item"
    priority := priority
    original_priority := priority
    complexity := complexity
    estimated_effort_minutes := effort
    created_date := current_date
    due_date := due_date
    completed_date := none
    status := .pending
    sla_breached := false
    days_in_backlog := 0
    propagation_count := 0
    aging_date := none }

/-- `_process_new_items` together with the item-counter threading of
`_generate_item_id`; `range(count)` of a non-positive count is empty. -/
def process_new_items (rand : Rand) (demand : DailyDemand) (current_date : Int)
    (profile : BacklogPropagationProfile) (counter : Nat) :
    List BacklogItem × Nat :=
  demand.new_items_by_priority.foldl
    (fun acc pc =>
      (List.range pc.2.toNat).foldl
        (fun (acc : List BacklogItem × Nat) _ =>
          (acc.1 ++ [mk_new_item rand current_date profile (acc.2 + 1) acc.1.length pc.1],
           acc.2 + 1))
        acc)
    ([], counter)

/-- Age-bucket classification of `_create_snapshot`. -/
def age_bucket (days : Int) : AgeBucket :=
  if days < 1 then .b0_1
  else if days ≤ 3 then .b1_3
  else if days ≤ 7 then .b4_7
  else if days ≤ 14 then .b8_14
  else .b15

/-- The `daily_metrics` dictionary at snapshot time.  Within the daily
loop every key read by `_create_snapshot` has been set; the field
defaults mirror the `metrics.get(key, default)` fallbacks. -/
structure DailyMetrics where
  aged_up : Nat := 0
  new_items : Nat := 0
  sla_breaches : Nat := 0
  resolved : Nat := 0
  capacity_used_hours : ℚ := 0
  daily_capacity_hours : ℚ := 40
  overflow_count : Int := 0
  propagated : Nat := 0
deriving Repr

/-- `_create_snapshot`.  (`recovery_days` divides by
`daily_capacity * recovery_rate_multiplier` under a guard on the capacity
alone; with a zero multiplier Python would raise where `ℚ` yields `0` —
no property below touches that corner.) -/
def create_snapshot (items : List BacklogItem) (current_date : Int)
    (profile : BacklogPropagationProfile) (metrics : DailyMetrics) :
    BacklogSnapshot :=
  let total_effort : ℚ := ((items.map (fun i => (i.estimated_effort_minutes : ℚ))).sum) / 60
  let avg_age : ℚ := if items.isEmpty then 0
    else ((items.map (fun i => (i.days_in_backlog : ℚ))).sum) / items.length
  let oldest_age : Int := pyMaxD 0 (items.map (·.days_in_backlog))
  let sla_breached := items.countP (·.sla_breached)
  let sla_at_risk := items.countP (fun i =>
    match i.due_date with
    | some dd => decide (dd - current_date ≤ 1) && !i.sla_breached
    | none => false)
  let total_with_sla := items.countP (fun i => i.due_date.isSome)
  let sla_compliance : ℚ := if total_with_sla > 0
    then ((total_with_sla : ℚ) - sla_breached) / total_with_sla * 100 else 100
  let max_cap : Int := match profile.max_backlog_capacity with
    | some m => if m ≠ 0 then m else 1000
    | none => 1000
  let capacity_util : ℚ := ((items.length : ℚ) / (max_cap : ℚ)) * 100
  let total_days_in_backlog : Int := (items.map (·.days_in_backlog)).sum
  let financial_impact := (total_days_in_backlog : ℚ) * profile.sla_penalty_per_day
  let customer_impact := (sla_breached : ℚ) * profile.customer_satisfaction_impact
  let daily_capacity := metrics.daily_capacity_hours
  let recovery_days : ℚ := if daily_capacity > 0
    then total_effort / (daily_capacity * profile.recovery_rate_multiplier) else 0
  { snapshot_date := current_date
    total_items := items.length
    items_by_priority := fun p => items.countP (fun i => i.priority == p)
    items_by_age := fun b => items.countP (fun i => age_bucket i.days_in_backlog == b)
    total_estimated_effort_hours := total_effort
    avg_age_days := avg_age
    oldest_item_age_days := oldest_age
    sla_breached_count := sla_breached
    sla_at_risk_count := sla_at_risk
    sla_compliance_rate := sla_compliance
    capacity_utilization := capacity_util
    overflow_count := metrics.overflow_count
    items_propagated := metrics.propagated
    items_aged_up := metrics.aged_up
    items_resolved := metrics.resolved
    new_items := metrics.new_items
    estimated_recovery_days := recovery_days
    customer_impact_score := customer_impact
    financial_impact := financial_impact }

/-- Mutable engine state threaded through the daily loop of
`simulate_propagation` (the write-only event log is not modelled). -/
structure EngineState where
  backlog_items : List BacklogItem
  item_counter : Nat
deriving Repr

/-- Result of one iteration of the daily `while` loop: the new state, the
produced snapshot (none on a skipped day) and, as an observer, the items
dropped from the live list during the day. -/
structure DayOutcome where
  state : EngineState
  snapshot : Option BacklogSnapshot
  removed : List BacklogItem

/-- One iteration of the `while current_date <= end_date` loop of
`simulate_propagation`, covering stages 1-9 of the source in order. -/
def run_day (req : BacklogPropagationRequest) (rand : Rand)
    (st : EngineState) (current_date : Int) : DayOutcome :=
  match dictLookup DailyCapacity.date req.daily_capacities current_date with
  | none => ⟨st, none, []⟩
  | some capacity =>
    let demandOpt := dictLookup DailyDemand.date req.daily_demands current_date
    let agingResults := st.backlog_items.map (age_item req current_date)
    let items1 := agingResults.map Prod.fst
    let aged_count := agingResults.countP (·.2)
    let decayRes := apply_decay rand current_date items1 req.profile.decay_rate
    let newRes := match demandOpt with
      | some demand => process_new_items rand demand current_date req.profile st.item_counter
      | none => ([], st.item_counter)
    let items3 := decayRes.1 ++ newRes.1
    let slaRes := if req.enable_sla_tracking
      then check_sla_breaches items3 current_date else (items3, 0)
    let racc := resolve_items_full slaRes.1 capacity current_date
    let items5 := racc.remaining_items
    let ov := handle_overflow items5 req.profile.max_backlog_capacity
      req.profile.overflow_strategy current_date
    let items8 := ov.1.map (fun item =>
      if item.status = .pending then
        { item with propagation_count := item.propagation_count + 1 }
      else item)
    let metrics : DailyMetrics :=
      { aged_up := aged_count
        new_items := newRes.1.length
        sla_breaches := slaRes.2
        resolved := racc.resolved_items.length
        capacity_used_hours := capacity.backlog_capacity_hours * capacity.productivity_modifier - racc.available_hours
        daily_capacity_hours := capacity.backlog_capacity_hours
        overflow_count := ov.2
        propagated := ov.1.length }
    ⟨⟨items8, newRes.2⟩,
     some (create_snapshot items8 current_date req.profile metrics),
     decayRes.2 ++ racc.resolved_items ++
       handle_overflow_removed items5 req.profile.max_backlog_capacity
         req.profile.overflow_strategy⟩

/-- Engine state at entry of the daily loop: the initial items and
`item_counter = len(initial_backlog_items)`. -/
def init_state (req : BacklogPropagationRequest) : EngineState :=
  ⟨req.initial_backlog_items, req.initial_backlog_items.length⟩

/-- Engine state after the first `k` iterations of the daily loop (the
iteration for date `start_date + k - 1`). -/
def state_after (req : BacklogPropagationRequest) (rand : Rand) :
    Nat → EngineState
  | 0 => init_state req
  | k + 1 => (run_day req rand (state_after req rand k) (req.start_date + k)).state

/-- Snapshots accumulated by the first `k` iterations of the daily loop. -/
def snapshots_after (req : BacklogPropagationRequest) (rand : Rand) :
    Nat → List BacklogSnapshot
  | 0 => []
  | k + 1 => snapshots_after req rand k ++
      ((run_day req rand (state_after req rand k) (req.start_date + k)).snapshot).toList

/-- Items dropped from the live list on day `start_date + k`. -/
def removed_on (req : BacklogPropagationRequest) (rand : Rand) (k : Nat) :
    List BacklogItem :=
  (run_day req rand (state_after req rand k) (req.start_date + k)).removed

/-- Number of iterations of the daily loop: one per date of
`[start_date, end_date]`, none when the range is empty. -/
def loop_days (req : BacklogPropagationRequest) : Nat :=
  (req.end_date - req.start_date + 1).toNat

/-- `simulate_propagation`: the daily loop followed by the summary
statistics.  `max(...)` over the snapshot list raises on an empty list,
which makes the whole call fail exactly as the Python does. -/
def simulate_propagation (req : BacklogPropagationRequest) (rand : Rand) :
    Except SimError BacklogPropagationResponse :=
  let n := loop_days req
  let final := state_after req rand n
  let daily_snapshots := snapshots_after req rand n
  let total_resolved := (daily_snapshots.map (·.items_resolved)).sum
  let total_new := (daily_snapshots.map (·.new_items)).sum
  let avg_backlog := npMean (daily_snapshots.map (fun s => (s.total_items : ℚ)))
  match pyMaxE (daily_snapshots.map (fun s => (s.total_items : Int))) with
  | .error e => .error e
  | .ok max_backlog =>
    .ok
      { organization_id := req.organization_id
        start_date := req.start_date
        end_date := req.end_date
        total_days := req.end_date - req.start_date + 1
        daily_snapshots := daily_snapshots
        final_backlog_items := final.backlog_items
        final_backlog_count := final.backlog_items.length
        summary_stats :=
          { total_items_processed := total_resolved
            total_new_items := total_new
            net_backlog_change := (final.backlog_items.length : Int) - req.initial_backlog_items.length
            avg_daily_backlog := avg_backlog
            max_daily_backlog := max_backlog
            avg_sla_compliance_rate := npMean (daily_snapshots.map (·.sla_compliance_rate))
            total_sla_breaches := (daily_snapshots.map (·.sla_breached_count)).sum
            avg_recovery_days := npMean (daily_snapshots.map (·.estimated_recovery_days))
            total_financial_impact := (daily_snapshots.map (·.financial_impact)).sum
            final_backlog_size := final.backlog_items.length }
        seed_used := req.seed }

/-- The items freshly created by stage 3 of the daily loop run from state
`st` on date `d` (empty on a skipped day or a day without demand). -/
def run_day_new (req : BacklogPropagationRequest) (rand : Rand)
    (st : EngineState) (d : Int) : List BacklogItem :=
  match dictLookup DailyCapacity.date req.daily_capacities d with
  | none => []
  | some _ =>
    match dictLookup DailyDemand.date req.daily_demands d with
    | some demand => (process_new_items rand demand d req.profile st.item_counter).1
    | none => []

/-- The items created by the `k`-th iteration of the daily loop. -/
def created_on (req : BacklogPropagationRequest) (rand : Rand) (k : Nat) :
    List BacklogItem :=
  run_day_new req rand (state_after req rand k) (req.start_date + k)

/-- The fields of an item that no simulation stage ever writes:
`id`, `original_priority`, `created_date`, `complexity` and
`estimated_effort_minutes`. -/
def frame_eq (x y : BacklogItem) : Prop :=
  y.id = x.id ∧ y.original_priority = x.original_priority ∧
  y.created_date = x.created_date ∧ y.complexity = x.complexity ∧
  y.estimated_effort_minutes = x.estimated_effort_minutes

/-- How an item surviving stages 2-8 of one day relates to its value right
after stage 1: frame fields intact, priority rank not lowered, age
untouched. -/
def keeps (x y : BacklogItem) : Prop :=
  frame_eq x y ∧
  get_priority_order x.priority ≤ get_priority_order y.priority ∧
  y.days_in_backlog = x.days_in_backlog

/-- How an item surviving a whole processed day relates to its value at
the previous day's end: frame fields intact, priority rank not lowered,
`days_in_backlog` exactly one larger. -/
def day_track (x y : BacklogItem) : Prop :=
  frame_eq x y ∧
  get_priority_order x.priority ≤ get_priority_order y.priority ∧
  y.days_in_backlog = x.days_in_backlog + 1

/-- Oracle bundle with constant draws, used by the concrete runs below. -/
def trivRand : Rand :=
  ⟨fun _ _ => 0, fun _ _ => .simple, fun _ _ => 0, 0⟩

/-- Template item for the concrete inputs below. -/
def baseItem : BacklogItem :=
  { id := "X", item_type := "work_item", priority := .low,
    original_priority := .low, created_date := 0 }

/-- Concrete input for the resolution-order claim: one low-priority and
one critical item. -/
def itemLowC1 : BacklogItem :=
  { baseItem with id := "L" }

/-- The critical companion of `itemLowC1`. -/
def itemCritC1 : BacklogItem :=
  { baseItem with id := "C", priority := .critical, original_priority := .critical }

/-- A capacity entry for date `d` with `h` backlog hours and no caps. -/
def simpleCap (d : Int) (h : ℚ) : DailyCapacity :=
  { date := d, total_capacity_hours := h, backlog_capacity_hours := h,
    new_work_capacity_hours := 0 }

/-- A day with half an hour of backlog capacity. -/
def capHalfHour : DailyCapacity := simpleCap 0 (1/2)

/-- A day with one hour of backlog capacity. -/
def capOneHour : DailyCapacity := simpleCap 0 1

/-- Two-hour low-priority item: first in the resolution pass, too big for
`capOneHour`. -/
def itemBigLow : BacklogItem :=
  { baseItem with id := "A2", estimated_effort_minutes := 120 }

/-- Half-hour critical item positioned after `itemBigLow` in the pass. -/
def itemSmallCrit : BacklogItem :=
  { itemCritC1 with id := "B2", estimated_effort_minutes := 30 }

/-- Concrete run with a negative `max_backlog_capacity` and the `reject`
strategy: two pending items on a single zero-capacity-hours day. -/
def reqC4 : BacklogPropagationRequest :=
  { organization_id := "org", start_date := 0, end_date := 0,
    profile := { max_backlog_capacity := some (-1), overflow_strategy := .reject },
    initial_backlog_items := [{ baseItem with id := "P" }, { baseItem with id := "Q" }],
    daily_capacities := [simpleCap 0 0],
    daily_demands := [] }

/-- Same single-day run as `reqC4` but with capacity ceiling `1`. -/
def reqC4W : BacklogPropagationRequest :=
  { reqC4 with profile := { max_backlog_capacity := some 1, overflow_strategy := .reject } }

/-- Ten pending items for the outsource-overflow example: five critical
ones followed by five low ones. -/
def c5items : List BacklogItem :=
  [{ baseItem with id := "c1", priority := .critical, original_priority := .critical },
   { baseItem with id := "c2", priority := .critical, original_priority := .critical },
   { baseItem with id := "c3", priority := .critical, original_priority := .critical },
   { baseItem with id := "c4", priority := .critical, original_priority := .critical },
   { baseItem with id := "c5", priority := .critical, original_priority := .critical },
   { baseItem with id := "l1" },
   { baseItem with id := "l2" },
   { baseItem with id := "l3" },
   { baseItem with id := "l4" },
   { baseItem with id := "l5" }]

/-- One-day run whose single item is already past its due date and small
enough to be resolved the same day. -/
def reqC7 : BacklogPropagationRequest :=
  { organization_id := "org", start_date := 0, end_date := 0,
    profile := { aging_enabled := false },
    initial_backlog_items := [{ baseItem with id := "S", due_date := some (-1) }],
    daily_capacities := [simpleCap 0 10],
    daily_demands := [] }

/-- One-day run with no initial items and no demand. -/
def reqC8 : BacklogPropagationRequest :=
  { organization_id := "org", start_date := 0, end_date := 0,
    daily_capacities := [simpleCap 0 1],
    daily_demands := [] }

/-- Two-day run with an empty capacity list: no day can be processed. -/
def reqC9 : BacklogPropagationRequest :=
  { organization_id := "org", start_date := 0, end_date := 1,
    daily_capacities := [], daily_demands := [] }

/-- One-day run with a single surviving pending item, used to witness the
per-day tracking claims. -/
def reqTrack : BacklogPropagationRequest :=
  { organization_id := "org", start_date := 0, end_date := 0,
    initial_backlog_items := [{ baseItem with id := "T" }],
    daily_capacities := [simpleCap 0 0],
    daily_demands := [] }

/-- The value of item `T` of `reqTrack` at the end of its day: one day
older and propagated once. -/
def itemTrackAfter : BacklogItem :=
  { baseItem with id := "T", days_in_backlog := 1, propagation_count := 1 }

theorem mem_of_mem_enum {α : Type _} {l : List α} {p : Nat × α}
    (h : p ∈ l.enum) : p.2 ∈ l := by
  have h2 : p.2 ∈ l.enum.map Prod.snd := List.mem_map_of_mem Prod.snd h
  simpa [List.enum_map_snd] using h2

theorem upgrade_rank_le (p : Priority) :
    get_priority_order p ≤ get_priority_order (upgrade_priority p) := by
  cases p <;> decide

theorem critical_of_rank_ge (p : Priority)
    (h : 4 ≤ get_priority_order p) : p = .critical := by
  revert h; cases p <;> decide

theorem frame_eq_refl (x : BacklogItem) : frame_eq x x :=
  ⟨rfl, rfl, rfl, rfl, rfl⟩

theorem frame_eq_trans {x y z : BacklogItem}
    (h1 : frame_eq x y) (h2 : frame_eq y z) : frame_eq x z :=
  ⟨h2.1.trans h1.1, h2.2.1.trans h1.2.1, h2.2.2.1.trans h1.2.2.1,
   h2.2.2.2.1.trans h1.2.2.2.1, h2.2.2.2.2.trans h1.2.2.2.2⟩

theorem keeps_refl (x : BacklogItem) : keeps x x :=
  ⟨frame_eq_refl x, le_refl _, rfl⟩

theorem keeps_trans {x y z : BacklogItem}
    (h1 : keeps x y) (h2 : keeps y z) : keeps x z :=
  ⟨frame_eq_trans h1.1 h2.1, h1.2.1.trans h2.2.1, h2.2.2.trans h1.2.2⟩

theorem day_track_keeps {x y z : BacklogItem}
    (h1 : day_track x y) (h2 : keeps y z) : day_track x z :=
  ⟨frame_eq_trans h1.1 h2.1, h1.2.1.trans h2.2.1, by rw [h2.2.2, h1.2.2]⟩

theorem keeps_day_track {x y z : BacklogItem}
    (h1 : keeps x y) (h2 : day_track y z) : day_track x z :=
  ⟨frame_eq_trans h1.1 h2.1, h1.2.1.trans h2.2.1, by rw [h2.2.2, h1.2.2]⟩

/-- C1.  The claim says the resolution pass visits items in descending
priority-rank order (critical before low).  The code comment in
`_resolve_items` states the same intent, but `sorted(key =
(-priority_order, days), reverse = True)` double-negates the priority
component: the pass actually visits ASCENDING priority rank.  Evaluated
at the failing input `[low, critical]` with half an hour of capacity:
the low item is visited (and resolved) first and the critical item is
left in the backlog. -/
theorem c1_resolution_order_code_bug :
    (resolveSorted [itemLowC1, itemCritC1]).map (·.priority) = [.low, .critical] ∧
    get_priority_order itemCritC1.priority > get_priority_order itemLowC1.priority ∧
    (resolve_items_full [itemLowC1, itemCritC1] capHalfHour 0).resolved_items.map (·.id) = ["L"] ∧
    (resolve_items_full [itemLowC1, itemCritC1] capHalfHour 0).remaining_items.map (·.id) = ["C"] := by
  refine ⟨by decide, by decide, ?_, ?_⟩ <;>
    norm_num [resolve_items_full, resolveSorted, List.insertionSort, List.orderedInsert,
      keyRelDesc, lexLe, resolve_sort_key, get_priority_order, itemLowC1, itemCritC1,
      baseItem, capHalfHour, simpleCap, resolve_step, capReached, List.foldl]

/-- C2 counterexample.  In the sorted pass `[itemBigLow, itemSmallCrit]`
the first item is skipped because its two hours exceed the single
available hour, yet the item positioned after it still ends the pass
with `status = completed`: a capacity skip does not cut off the rest of
the pass. -/
theorem c2_counterexample :
    (resolveSorted [itemBigLow, itemSmallCrit]).map (·.id) = ["A2", "B2"] ∧
    ((itemBigLow.estimated_effort_minutes : ℚ) / 60 >
      capOneHour.backlog_capacity_hours * capOneHour.productivity_modifier) ∧
    (resolve_items_full [itemBigLow, itemSmallCrit] capOneHour 0).remaining_items.map (·.id) = ["A2"] ∧
    (resolve_items_full [itemBigLow, itemSmallCrit] capOneHour 0).resolved_items =
      [{ itemSmallCrit with status := .completed, completed_date := some 0 }] := by
  refine ⟨by decide, ?_, ?_, ?_⟩ <;>
    norm_num [resolve_items_full, resolveSorted, List.insertionSort, List.orderedInsert,
      keyRelDesc, lexLe, resolve_sort_key, get_priority_order, itemBigLow, itemSmallCrit,
      itemCritC1, baseItem, capOneHour, simpleCap, resolve_step, capReached, List.foldl]

/-- C2 amended: when an item of the sorted pass is skipped because its
effort in hours exceeds the remaining available hours, the skip only
moves that item to the remaining list — available hours and both
processed counters are unchanged, and the rest of the pass proceeds
exactly as if the skipped item had not been there, so a later item whose
own effort fits the remaining hours can still be resolved. -/
theorem c2_capacity_skip_preserves_pass (capacity : DailyCapacity)
    (current_date : Int) (acc : ResolveAcc) (item : BacklogItem)
    (rest : List BacklogItem)
    (h : (item.estimated_effort_minutes : ℚ) / 60 > acc.available_hours) :
    resolve_step capacity current_date acc item =
      { acc with remaining_items := acc.remaining_items ++ [item] } ∧
    (item :: rest).foldl (resolve_step capacity current_date) acc =
      rest.foldl (resolve_step capacity current_date)
        { acc with remaining_items := acc.remaining_items ++ [item] } := by
  have hstep : resolve_step capacity current_date acc item =
      { acc with remaining_items := acc.remaining_items ++ [item] } := by
    simp only [resolve_step, if_pos h]
  exact ⟨hstep, by rw [List.foldl_cons, hstep]⟩

/-- Witness for `c2_capacity_skip_preserves_pass` at the counterexample
input. -/
theorem c2_capacity_skip_witness :
    ((itemBigLow.estimated_effort_minutes : ℚ) / 60 > (1 : ℚ)) ∧
    resolve_step capOneHour 0 ⟨[], [], 1, 0, 0⟩ itemBigLow =
      { resolved_items := [], remaining_items := [itemBigLow],
        available_hours := 1, items_processed := 0, complex_items_processed := 0 } :=
  ⟨by norm_num [itemBigLow, baseItem],
   by
    have h := (c2_capacity_skip_preserves_pass capOneHour 0 ⟨[], [], 1, 0, 0⟩
      itemBigLow [itemSmallCrit] (by norm_num [itemBigLow, baseItem])).1
    simpa using h⟩

theorem pySliceTo_ofNat5 (l : List (Nat × BacklogItem)) :
    pySliceTo (5 : Int) l = l.take 5 := by
  simp [pySliceTo]

/-- C5.  With `max_backlog_capacity = 5`, `overflow_strategy =
outsource` and any live list of 10 pending items, the overflow count is
5, the returned live list keeps exactly the 5 items left by the
priority-ascending stable sort after its first 5 entries (all still
pending), and the 5 dropped items all carry `status = outsourced` and
have priority rank at most that of every kept item. -/
theorem c5_outsource_five_lowest (items : List BacklogItem) (d : Int)
    (hlen : items.length = 10)
    (hp : ∀ x ∈ items, x.status = .pending) :
    (handle_overflow items (some 5) .outsource d).2 = 5 ∧
    (handle_overflow items (some 5) .outsource d).1.length = 5 ∧
    (∀ y ∈ (handle_overflow items (some 5) .outsource d).1, y.status = .pending) ∧
    (handle_overflow items (some 5) .outsource d).1.Perm
      (((prioritySorted items).drop 5).map Prod.snd) ∧
    (handle_overflow_removed items (some 5) .outsource).length = 5 ∧
    (∀ z ∈ handle_overflow_removed items (some 5) .outsource, z.status = .outsourced) ∧
    (∀ z ∈ handle_overflow_removed items (some 5) .outsource,
      ∀ y ∈ (handle_overflow items (some 5) .outsource d).1,
        get_priority_order z.priority ≤ get_priority_order y.priority) := by
  classical
  have hnle : ¬ ((items.length : Int) ≤ 5) := by rw [hlen]; decide
  have hcount : (items.length : Int) - 5 = 5 := by rw [hlen]; decide
  have hperm : (prioritySorted items).Perm items.enum := List.perm_insertionSort _ _
  have hSlen : (prioritySorted items).length = 10 := by
    rw [hperm.length_eq, List.enum_length, hlen]
  have hmemS : ∀ p ∈ prioritySorted items, p.2 ∈ items := by
    intro p hmem
    exact mem_of_mem_enum (hperm.mem_iff.mp hmem)
  have hnodup : ((prioritySorted items).map Prod.fst).Nodup := by
    have h1 : (items.enum.map Prod.fst).Nodup := by
      rw [List.enum_map_fst]; exact List.nodup_range _
    exact ((hperm.map Prod.fst).nodup_iff).mpr h1
  have hdisj : ∀ q ∈ (prioritySorted items).drop 5,
      q.1 ∉ ((prioritySorted items).take 5).map Prod.fst := by
    intro q hq hqin
    have h2 := hnodup
    rw [← List.take_append_drop 5 (prioritySorted items), List.map_append,
      List.nodup_append] at h2
    exact h2.2.2 hqin (List.mem_map_of_mem Prod.fst hq)
  have hov : handle_overflow items (some 5) .outsource d =
      ((items.enum.map (outsource_mark (((prioritySorted items).take 5).map Prod.fst))).filter
        (fun x => x.status != ItemStatus.outsourced), 5) := by
    simp only [handle_overflow, if_neg hnle, hcount, pySliceTo_ofNat5]
  have hrem : handle_overflow_removed items (some 5) .outsource =
      ((prioritySorted items).take 5).map
        (fun p => { p.2 with status := ItemStatus.outsourced }) := by
    simp only [handle_overflow_removed, if_neg hnle, hcount, pySliceTo_ofNat5]
  have h1 : ((((prioritySorted items).take 5).map
        (outsource_mark (((prioritySorted items).take 5).map Prod.fst))).filter
        (fun x => x.status != ItemStatus.outsourced)) = [] := by
    rw [List.filter_eq_nil_iff]
    intro a ha
    rcases List.mem_map.mp ha with ⟨p, hpmem, rfl⟩
    rw [outsource_mark, if_pos (List.mem_map_of_mem Prod.fst hpmem)]
    simp
  have h2 : ((((prioritySorted items).drop 5).map
        (outsource_mark (((prioritySorted items).take 5).map Prod.fst))).filter
        (fun x => x.status != ItemStatus.outsourced)) =
      ((prioritySorted items).drop 5).map Prod.snd := by
    have hmapeq : (((prioritySorted items).drop 5).map
        (outsource_mark (((prioritySorted items).take 5).map Prod.fst))) =
        ((prioritySorted items).drop 5).map Prod.snd := by
      apply List.map_congr_left
      intro q hq
      rw [outsource_mark, if_neg (hdisj q hq)]
    rw [hmapeq, List.filter_eq_self]
    intro a ha
    rcases List.mem_map.mp ha with ⟨q, hqmem, rfl⟩
    have hst : q.2.status = .pending := hp _ (hmemS q (List.drop_subset _ _ hqmem))
    simp [hst]
  have hfilter : (((prioritySorted items).map
        (outsource_mark (((prioritySorted items).take 5).map Prod.fst))).filter
        (fun x => x.status != ItemStatus.outsourced)) =
      ((prioritySorted items).drop 5).map Prod.snd := by
    have hcongr : (((prioritySorted items).map
          (outsource_mark (((prioritySorted items).take 5).map Prod.fst))).filter
          (fun x => x.status != ItemStatus.outsourced)) =
        ((((prioritySorted items).take 5 ++ (prioritySorted items).drop 5).map
          (outsource_mark (((prioritySorted items).take 5).map Prod.fst))).filter
          (fun x => x.status != ItemStatus.outsourced)) := by
      rw [List.take_append_drop]
    rw [hcongr, List.map_append, List.filter_append, h1, h2, List.nil_append]
  have hlive : (handle_overflow items (some 5) .outsource d).1.Perm
      (((prioritySorted items).drop 5).map Prod.snd) := by
    rw [hov]
    have hm : (items.enum.map (outsource_mark (((prioritySorted items).take 5).map Prod.fst))).Perm
        ((prioritySorted items).map (outsource_mark (((prioritySorted items).take 5).map Prod.fst))) :=
      (hperm.map _).symm
    exact (hm.filter _).trans (by rw [hfilter])
  have hdroplen : (((prioritySorted items).drop 5).map Prod.snd).length = 5 := by
    rw [List.length_map, List.length_drop, hSlen]
  refine ⟨by rw [hov], by rw [hlive.length_eq, hdroplen], ?_, hlive, ?_, ?_, ?_⟩
  · intro y hy
    have hy2 := hlive.mem_iff.mp hy
    rcases List.mem_map.mp hy2 with ⟨q, hqmem, rfl⟩
    exact hp _ (hmemS q (List.drop_subset _ _ hqmem))
  · rw [hrem, List.length_map, List.length_take, hSlen]
    decide
  · intro z hz
    rw [hrem] at hz
    rcases List.mem_map.mp hz with ⟨p, hpmem, rfl⟩
    rfl
  · intro z hz y hy
    rw [hrem] at hz
    rcases List.mem_map.mp hz with ⟨p, hpmem, rfl⟩
    have hy2 := hlive.mem_iff.mp hy
    rcases List.mem_map.mp hy2 with ⟨q, hqmem, rfl⟩
    have hsorted : List.Sorted (keyRelAsc priority_sort_key) (prioritySorted items) :=
      List.sorted_insertionSort _ _
    have hrel : keyRelAsc priority_sort_key p q :=
      hsorted.rel_of_mem_take_of_mem_drop hpmem hqmem
    have hle : ((get_priority_order p.2.priority : Int)) ≤ (get_priority_order q.2.priority : Int) := by
      rcases hrel with h | ⟨h, _⟩
      · exact le_of_lt h
      · exact le_of_eq h
    exact_mod_cast hle

theorem dictLookup_mem {α : Type _} {key : α → Int} {l : List α} {d : Int} {x : α}
    (h : dictLookup key l d = some x) : x ∈ l := by
  have hgen : ∀ (l : List α) (acc : Option α),
      l.foldl (fun acc y => if key y = d then some y else acc) acc = some x →
      x ∈ l ∨ acc = some x := by
    intro l
    induction l with
    | nil => intro acc h2; exact Or.inr h2
    | cons a t ih =>
      intro acc h2
      rcases ih _ h2 with h3 | h3
      · exact Or.inl (List.mem_cons_of_mem _ h3)
      · have h3b : (if key a = d then some a else acc) = some x := h3
        by_cases hk : key a = d
        · rw [if_pos hk] at h3b
          exact Or.inl ((Option.some_inj.mp h3b).symm ▸ List.mem_cons_self a t)
        · rw [if_neg hk] at h3b
          exact Or.inr h3b
  rcases hgen l none h with h2 | h2
  · exact h2
  · exact absurd h2 (by simp)

theorem apply_decay_nil (rand : Rand) (d : Int) (r : ℚ) :
    apply_decay rand d [] r = ([], []) := by
  unfold apply_decay
  split <;> simp

theorem handle_overflow_nil (mc : Option Int) (strategy : OverflowStrategy) (d : Int) :
    (handle_overflow [] mc strategy d).1 = [] := by
  unfold handle_overflow
  match mc with
  | none => rfl
  | some maxCap =>
    by_cases h : ((0 : Int) ≤ maxCap)
    · simp [h]
    · simp only [List.length_nil, Nat.cast_zero, h, if_neg h]
      cases strategy <;>
        simp [prioritySorted, List.insertionSort, pySliceTo, List.enum]

theorem process_new_items_nil (rand : Rand) (demand : DailyDemand) (d : Int)
    (profile : BacklogPropagationProfile) (counter : Nat)
    (h : ∀ pc ∈ demand.new_items_by_priority, pc.2 ≤ 0) :
    process_new_items rand demand d profile counter = ([], counter) := by
  unfold process_new_items
  have hgen : ∀ (l : List (Priority × Int)), (∀ pc ∈ l, pc.2 ≤ 0) →
      l.foldl (fun acc pc =>
        (List.range pc.2.toNat).foldl
          (fun (acc : List BacklogItem × Nat) _ =>
            (acc.1 ++ [mk_new_item rand d profile (acc.2 + 1) acc.1.length pc.1],
             acc.2 + 1)) acc) ([], counter) = ([], counter) := by
    intro l
    induction l with
    | nil => intro; rfl
    | cons a t ih =>
      intro h2
      have ha : a.2.toNat = 0 := Int.toNat_of_nonpos (h2 a (List.mem_cons_self a t))
      simp only [List.foldl_cons, ha, List.range_zero, List.foldl_nil]
      exact ih (fun pc hpc => h2 pc (List.mem_cons_of_mem _ hpc))
  exact hgen _ h

theorem run_day_keeps_empty (req : BacklogPropagationRequest) (rand : Rand)
    (st : EngineState) (d : Int) (hst : st.backlog_items = [])
    (hdem : ∀ dem ∈ req.daily_demands, ∀ pc ∈ dem.new_items_by_priority, pc.2 ≤ 0) :
    (run_day req rand st d).state.backlog_items = [] ∧
    (∀ s ∈ ((run_day req rand st d).snapshot).toList,
      s.total_items = 0 ∧ s.sla_compliance_rate = 100) := by
  rcases hcap : dictLookup DailyCapacity.date req.daily_capacities d with _ | capacity
  · constructor
    · simp [run_day, hcap, hst]
    · simp [run_day, hcap]
  · rcases hd : dictLookup DailyDemand.date req.daily_demands d with _ | demand
    all_goals
      constructor
    · simp [run_day, hcap, hd, hst, apply_decay_nil, handle_overflow_nil,
        check_sla_breaches, resolve_items_full, resolveSorted, List.insertionSort]
    · simp [run_day, hcap, hd, hst, apply_decay_nil, handle_overflow_nil,
        check_sla_breaches, resolve_items_full, resolveSorted, List.insertionSort,
        create_snapshot, pyMaxD]
    · simp [run_day, hcap, hd, hst, apply_decay_nil, handle_overflow_nil,
        check_sla_breaches, resolve_items_full, resolveSorted, List.insertionSort,
        process_new_items_nil rand demand d req.profile st.item_counter
          (hdem demand (dictLookup_mem hd))]
    · simp [run_day, hcap, hd, hst, apply_decay_nil, handle_overflow_nil,
        check_sla_breaches, resolve_items_full, resolveSorted, List.insertionSort,
        create_snapshot, pyMaxD,
        process_new_items_nil rand demand d req.profile st.item_counter
          (hdem demand (dictLookup_mem hd))]

/-- C8.  A run with no initial items whose daily demands admit no new
item keeps the live backlog empty forever, so every produced snapshot
reports `total_items = 0` and `sla_compliance_rate = 100.0`; and in
general `_create_snapshot` reports 100% compliance whenever no live item
carries a due date. -/
theorem c8_empty_run_full_compliance (req : BacklogPropagationRequest) (rand : Rand)
    (h0 : req.initial_backlog_items = [])
    (hdem : ∀ dem ∈ req.daily_demands, ∀ pc ∈ dem.new_items_by_priority, pc.2 ≤ 0) :
    (∀ k, (state_after req rand k).backlog_items = []) ∧
    (∀ k, ∀ s ∈ snapshots_after req rand k,
      s.total_items = 0 ∧ s.sla_compliance_rate = 100) ∧
    (∀ (items : List BacklogItem) (d : Int) (profile : BacklogPropagationProfile)
      (metrics : DailyMetrics), (∀ x ∈ items, x.due_date = none) →
      (create_snapshot items d profile metrics).sla_compliance_rate = 100) := by
  have hstate : ∀ k, (state_after req rand k).backlog_items = [] := by
    intro k
    induction k with
    | zero => exact h0
    | succ n ih =>
      exact (run_day_keeps_empty req rand _ _ ih hdem).1
  refine ⟨hstate, ?_, ?_⟩
  · intro k
    induction k with
    | zero => intro s hs; exact absurd hs (List.not_mem_nil s)
    | succ n ih =>
      intro s hs
      rw [snapshots_after, List.mem_append] at hs
      rcases hs with hs | hs
      · exact ih s hs
      · exact (run_day_keeps_empty req rand _ _ (hstate n) hdem).2 s hs
  · intro items d profile metrics hdue
    have hcnt : items.countP (fun i => i.due_date.isSome) = 0 := by
      rw [List.countP_eq_zero]
      intro a ha
      simp [hdue a ha]
    simp [create_snapshot, hcnt]

/-- C9.  When no date of `[start_date, end_date]` has a matching
capacity entry, every day is skipped, the snapshot list stays empty and
`simulate_propagation` raises from `max()` over the empty
`total_items` sequence while computing the summary statistics, never
returning a response. -/
theorem c9_no_capacity_raises (req : BacklogPropagationRequest) (rand : Rand)
    (h : ∀ d : Int, req.start_date ≤ d → d ≤ req.end_date →
      dictLookup DailyCapacity.date req.daily_capacities d = none) :
    simulate_propagation req rand = .error .emptyMax := by
  have hsnap : ∀ k : Nat, k ≤ loop_days req → snapshots_after req rand k = [] := by
    intro k
    induction k with
    | zero => intro _; rfl
    | succ n ih =>
      intro hk
      have hn : n ≤ loop_days req := Nat.le_of_succ_le hk
      have hd1 : req.start_date ≤ req.start_date + (n : Int) := by omega
      have hd2 : req.start_date + (n : Int) ≤ req.end_date := by
        have hk2 : (n : Int) + 1 ≤ (req.end_date - req.start_date + 1).toNat := by
          exact_mod_cast hk
        omega
      have hcap := h (req.start_date + (n : Int)) hd1 hd2
      rw [snapshots_after, ih hn]
      simp [run_day, hcap]
  have h2 := hsnap (loop_days req) le_rfl
  simp [simulate_propagation, h2, pyMaxE]

/-- C7.  `_check_sla_breaches` sets `sla_breached` exactly when the item
has a due date strictly before the current simulated day and is not
already flagged (leaving due date, status and completion date
untouched); and because the check runs before the resolution stage, a
concrete run shows an item that is flagged breached and resolved on the
same day. -/
theorem c7_sla_breach_check :
    (∀ (d : Int) (x : BacklogItem),
      ((check_sla_single d x).sla_breached = true ↔
        x.sla_breached = true ∨ ∃ dd, x.due_date = some dd ∧ dd < d) ∧
      (check_sla_single d x).due_date = x.due_date ∧
      (check_sla_single d x).status = x.status ∧
      (check_sla_single d x).completed_date = x.completed_date) ∧
    (∃ y ∈ removed_on reqC7 trivRand 0,
      y.sla_breached = true ∧ y.status = .completed ∧ y.completed_date = some 0) := by
  constructor
  · intro d x
    refine ⟨?_, ?_, ?_, ?_⟩
    · unfold check_sla_single sla_breach_cond
      rcases hdd : x.due_date with _ | dd
      · simp
      · by_cases hb : x.sla_breached
        · simp [hb]
        · by_cases hlt : dd < d
          · simp [hb, hlt]
          · simp [hb, hlt]
    · unfold check_sla_single
      split <;> rfl
    · unfold check_sla_single
      split <;> rfl
    · unfold check_sla_single
      split <;> rfl
  · norm_num [removed_on, state_after, init_state, run_day, dictLookup, reqC7, simpleCap,
      baseItem, age_item, apply_aging, apply_decay, process_new_items, check_sla_breaches,
      check_sla_single, sla_breach_cond, resolve_items_full, resolveSorted,
      List.insertionSort, List.orderedInsert, keyRelDesc, keyRelAsc, lexLe,
      resolve_sort_key, reject_sort_key, priority_sort_key, get_priority_order,
      resolve_step, capReached, handle_overflow, handle_overflow_removed, prioritySorted,
      pySliceTo, upgrade_priority, List.foldl, List.enum, List.filterMap]

/-- Witness for `c5_outsource_five_lowest` at ten concrete pending items
(five critical, five low). -/
theorem c5_outsource_witness :
    c5items.length = 10 ∧
    c5items.all (fun x => x.status == ItemStatus.pending) = true ∧
    (handle_overflow c5items (some 5) .outsource 0).2 = 5 ∧
    (handle_overflow c5items (some 5) .outsource 0).1.length = 5 ∧
    (handle_overflow_removed c5items (some 5) .outsource).length = 5 := by
  have h := c5_outsource_five_lowest c5items 0 (by decide) (by decide)
  exact ⟨by decide, by decide, h.1, h.2.1, h.2.2.2.2.1⟩

/-- Witness for `c8_empty_run_full_compliance` on a concrete one-day run
with no items and no demand. -/
theorem c8_empty_run_witness :
    reqC8.initial_backlog_items = [] ∧
    (state_after reqC8 trivRand 1).backlog_items = [] :=
  ⟨rfl, (c8_empty_run_full_compliance reqC8 trivRand rfl
    (by intro dem hdem; simp [reqC8] at hdem)).1 1⟩

/-- Witness for `c9_no_capacity_raises` on a concrete two-day request
with an empty capacity list. -/
theorem c9_no_capacity_witness :
    simulate_propagation reqC9 trivRand = .error .emptyMax :=
  c9_no_capacity_raises reqC9 trivRand (fun _ _ _ => rfl)


theorem handle_overflow_reject_le (items : List BacklogItem) (N : Int)
    (d : Int) (hN : 0 ≤ N) :
    ((handle_overflow items (some N) .reject d).1.length : Int) ≤ N := by
  by_cases h : (items.length : Int) ≤ N
  · simp only [handle_overflow, if_pos h]
    exact h
  · simp only [handle_overflow, if_neg h, pySliceTo, if_pos hN, List.length_take]
    have h1 : (min N.toNat (items.insertionSort (keyRelDesc reject_sort_key)).length : Int) ≤ (N.toNat : Int) := by
      exact_mod_cast Nat.min_le_left _ _
    have h2 : ((N.toNat : Nat) : Int) = N := Int.toNat_of_nonneg hN
    omega

/-- C4 amended (the claim holds for every non-negative capacity ceiling):
on every processed day of a run with `overflow_strategy = reject` and
`max_backlog_capacity = N ≥ 0`, the live backlog immediately after the
overflow stage — and hence at the end of the day, since the remaining
stages only map over the list — has length at most `N`. -/
theorem c4_reject_capacity_bound (req : BacklogPropagationRequest)
    (rand : Rand) (N : Int) (k : Nat) (cap : DailyCapacity)
    (hstrat : req.profile.overflow_strategy = .reject)
    (hmax : req.profile.max_backlog_capacity = some N)
    (hN : 0 ≤ N)
    (hcap : dictLookup DailyCapacity.date req.daily_capacities (req.start_date + k) = some cap) :
    ((state_after req rand (k + 1)).backlog_items.length : Int) ≤ N := by
  have hs : state_after req rand (k + 1) =
      (run_day req rand (state_after req rand k) (req.start_date + k)).state := rfl
  rw [hs]
  simp only [run_day, hcap, hmax, hstrat, List.length_map]
  exact handle_overflow_reject_le _ N _ hN

/-- C4 counterexample.  `max_backlog_capacity` is an unconstrained
`Optional[int]`; with the negative ceiling `-1` the `reject` branch
slices `sorted_items[:-1]`, keeping one of the two pending items, so the
live list after the overflow stage has length `1 > -1`. -/
theorem c4_counterexample :
    reqC4.profile.max_backlog_capacity = some (-1) ∧
    reqC4.profile.overflow_strategy = .reject ∧
    (dictLookup DailyCapacity.date reqC4.daily_capacities reqC4.start_date).isSome = true ∧
    ¬ ((state_after reqC4 trivRand 1).backlog_items.length : Int) ≤ -1 := by
  refine ⟨rfl, rfl, rfl, ?_⟩
  have h : (state_after reqC4 trivRand 1).backlog_items.length = 1 := by
    norm_num [state_after, init_state, run_day, dictLookup, reqC4, simpleCap, baseItem,
      age_item, apply_aging, apply_decay, process_new_items, check_sla_breaches,
      check_sla_single, sla_breach_cond, resolve_items_full, resolveSorted,
      List.insertionSort, List.orderedInsert, keyRelDesc, keyRelAsc, lexLe,
      resolve_sort_key, reject_sort_key, priority_sort_key, get_priority_order,
      resolve_step, capReached, handle_overflow, prioritySorted, pySliceTo,
      upgrade_priority, List.foldl, List.enum, List.filterMap]
  rw [h]
  decide

/-- Witness for `c4_reject_capacity_bound`: the same two-item single-day
run with ceiling `1` ends its day with at most one live item. -/
theorem c4_capacity_bound_witness :
    ((0 : Int) ≤ 1) ∧ ((state_after reqC4W trivRand 1).backlog_items.length : Int) ≤ 1 :=
  ⟨by decide,
   c4_reject_capacity_bound reqC4W trivRand 1 0 (simpleCap 0 0) rfl rfl (by decide)
     (by norm_num [dictLookup, reqC4W, reqC4, simpleCap])⟩

theorem keeps_status_update (x : BacklogItem) (s : ItemStatus) :
    keeps x { x with status := s } :=
  ⟨⟨rfl, rfl, rfl, rfl, rfl⟩, le_refl _, rfl⟩

theorem keeps_mark_completed (x : BacklogItem) (v : Option Int) :
    keeps x { x with status := .completed, completed_date := v } :=
  ⟨⟨rfl, rfl, rfl, rfl, rfl⟩, le_refl _, rfl⟩

theorem keeps_defer (x : BacklogItem) (v : Option Int) :
    keeps x { x with status := .deferred, due_date := v } :=
  ⟨⟨rfl, rfl, rfl, rfl, rfl⟩, le_refl _, rfl⟩

theorem keeps_escalate (x : BacklogItem) :
    keeps x { x with priority := upgrade_priority x.priority, status := .escalated } :=
  ⟨⟨rfl, rfl, rfl, rfl, rfl⟩, upgrade_rank_le _, rfl⟩

theorem keeps_sla_flag (x : BacklogItem) :
    keeps x { x with sla_breached := true } :=
  ⟨⟨rfl, rfl, rfl, rfl, rfl⟩, le_refl _, rfl⟩

theorem keeps_prop_bump (x : BacklogItem) :
    keeps x (if x.status = .pending then
      { x with propagation_count := x.propagation_count + 1 } else x) := by
  split
  · exact ⟨⟨rfl, rfl, rfl, rfl, rfl⟩, le_refl _, rfl⟩
  · exact keeps_refl x

theorem keeps_check_sla (d : Int) (x : BacklogItem) :
    keeps x (check_sla_single d x) := by
  unfold check_sla_single
  split
  · exact keeps_sla_flag x
  · exact keeps_refl x

theorem apply_aging_keeps (item : BacklogItem) (d : Int)
    (profile : BacklogPropagationProfile) :
    keeps item (apply_aging item d profile).1 := by
  unfold apply_aging
  split
  · exact keeps_refl item
  · split
    · exact keeps_refl item
    · dsimp only
      split
      · exact ⟨⟨rfl, rfl, rfl, rfl, rfl⟩, upgrade_rank_le _, rfl⟩
      · exact keeps_refl item

theorem age_item_track (req : BacklogPropagationRequest) (d : Int)
    (x : BacklogItem) :
    day_track x (age_item req d x).1 := by
  unfold age_item
  have hbase : day_track x { x with days_in_backlog := x.days_in_backlog + 1 } :=
    ⟨⟨rfl, rfl, rfl, rfl, rfl⟩, le_refl _, rfl⟩
  split
  · exact day_track_keeps hbase (apply_aging_keeps _ d req.profile)
  · exact hbase

theorem resolve_step_remaining (cap : DailyCapacity) (d : Int)
    (acc : ResolveAcc) (a : BacklogItem) :
    (resolve_step cap d acc a).remaining_items = acc.remaining_items ++ [a] ∨
    (resolve_step cap d acc a).remaining_items = acc.remaining_items := by
  unfold resolve_step
  dsimp only
  split
  · exact Or.inl rfl
  · split
    · exact Or.inl rfl
    · split
      · exact Or.inl rfl
      · exact Or.inr rfl

theorem resolve_step_resolved (cap : DailyCapacity) (d : Int)
    (acc : ResolveAcc) (a : BacklogItem) :
    (resolve_step cap d acc a).resolved_items = acc.resolved_items ∨
    (resolve_step cap d acc a).resolved_items = acc.resolved_items ++
      [{ a with status := .completed, completed_date := some d }] := by
  unfold resolve_step
  dsimp only
  split
  · exact Or.inl rfl
  · split
    · exact Or.inl rfl
    · split
      · exact Or.inl rfl
      · exact Or.inr rfl

theorem resolve_fold_remaining_mem (cap : DailyCapacity) (d : Int) :
    ∀ (l : List BacklogItem) (acc : ResolveAcc) (y : BacklogItem),
      y ∈ (l.foldl (resolve_step cap d) acc).remaining_items →
      y ∈ acc.remaining_items ∨ y ∈ l := by
  intro l
  induction l with
  | nil => intro acc y hy; exact Or.inl hy
  | cons a t ih =>
    intro acc y hy
    rw [List.foldl_cons] at hy
    rcases ih _ y hy with h | h
    · rcases resolve_step_remaining cap d acc a with h2 | h2
      · rw [h2, List.mem_append] at h
        rcases h with h | h
        · exact Or.inl h
        · exact Or.inr (by simp at h; simp [h])
      · rw [h2] at h
        exact Or.inl h
    · exact Or.inr (List.mem_cons_of_mem _ h)

theorem resolve_fold_resolved_mem (cap : DailyCapacity) (d : Int) :
    ∀ (l : List BacklogItem) (acc : ResolveAcc) (y : BacklogItem),
      y ∈ (l.foldl (resolve_step cap d) acc).resolved_items →
      y ∈ acc.resolved_items ∨
      ∃ x ∈ l, y = { x with status := .completed, completed_date := some d } := by
  intro l
  induction l with
  | nil => intro acc y hy; exact Or.inl hy
  | cons a t ih =>
    intro acc y hy
    rw [List.foldl_cons] at hy
    rcases ih _ y hy with h | h
    · rcases resolve_step_resolved cap d acc a with h2 | h2
      · rw [h2] at h
        exact Or.inl h
      · rw [h2, List.mem_append] at h
        rcases h with h | h
        · exact Or.inl h
        · refine Or.inr ⟨a, List.mem_cons_self a t, ?_⟩
          simpa using h
    · rcases h with ⟨x, hx, hxy⟩
      exact Or.inr ⟨x, List.mem_cons_of_mem _ hx, hxy⟩

theorem resolve_remaining_sub (items : List BacklogItem) (cap : DailyCapacity)
    (d : Int) :
    ∀ y ∈ (resolve_items_full items cap d).remaining_items, y ∈ items := by
  intro y hy
  unfold resolve_items_full at hy
  rcases resolve_fold_remaining_mem cap d _ _ y hy with h | h
  · exact absurd h (List.not_mem_nil y)
  · exact (List.mem_insertionSort _).mp h

theorem resolve_resolved_keeps (items : List BacklogItem) (cap : DailyCapacity)
    (d : Int) :
    ∀ y ∈ (resolve_items_full items cap d).resolved_items,
      ∃ x ∈ items, keeps x y := by
  intro y hy
  unfold resolve_items_full at hy
  rcases resolve_fold_resolved_mem cap d _ _ y hy with h | h
  · exact absurd h (List.not_mem_nil y)
  · rcases h with ⟨x, hx, rfl⟩
    exact ⟨x, (List.mem_insertionSort _).mp hx, keeps_mark_completed x (some d)⟩

theorem apply_decay_remaining_sub (rand : Rand) (d : Int)
    (items : List BacklogItem) (r : ℚ) :
    ∀ y ∈ (apply_decay rand d items r).1, y ∈ items := by
  intro y hy
  unfold apply_decay at hy
  split at hy
  · exact hy
  · rcases List.mem_filterMap.mp hy with ⟨p, hp, hpy⟩
    split at hpy
    · exact (Option.some_inj.mp hpy) ▸ mem_of_mem_enum hp
    · exact absurd hpy (by simp)

theorem apply_decay_removed_keeps (rand : Rand) (d : Int)
    (items : List BacklogItem) (r : ℚ) :
    ∀ y ∈ (apply_decay rand d items r).2, ∃ x ∈ items, keeps x y := by
  intro y hy
  unfold apply_decay at hy
  split at hy
  · exact absurd hy (List.not_mem_nil y)
  · rcases List.mem_filterMap.mp hy with ⟨p, hp, hpy⟩
    split at hpy
    · exact absurd hpy (by simp)
    · refine ⟨p.2, mem_of_mem_enum hp, ?_⟩
      rw [← Option.some_inj.mp hpy]
      exact keeps_mark_completed p.2 (some rand.today)

theorem pySliceTo_subset (n : Int) (l : List α) : pySliceTo n l ⊆ l := by
  unfold pySliceTo
  split <;> exact List.take_subset _ _

theorem pySliceFrom_subset (n : Int) (l : List α) : pySliceFrom n l ⊆ l := by
  unfold pySliceFrom
  split <;> exact List.drop_subset _ _

theorem prioritySorted_snd_mem (items : List BacklogItem) :
    ∀ p ∈ prioritySorted items, p.2 ∈ items := by
  intro p hp
  exact mem_of_mem_enum ((List.mem_insertionSort _).mp hp)

theorem defer_mark_keeps (d : Int) (idx : List Nat) (p : Nat × BacklogItem) :
    keeps p.2 (defer_mark d idx p) := by
  unfold defer_mark
  split
  · exact keeps_defer p.2 _
  · exact keeps_refl p.2

theorem escalate_mark_keeps (idx : List Nat) (p : Nat × BacklogItem) :
    keeps p.2 (escalate_mark idx p) := by
  unfold escalate_mark
  split
  · exact keeps_escalate p.2
  · exact keeps_refl p.2

theorem outsource_mark_keeps (idx : List Nat) (p : Nat × BacklogItem) :
    keeps p.2 (outsource_mark idx p) := by
  unfold outsource_mark
  split
  · exact keeps_status_update p.2 _
  · exact keeps_refl p.2

theorem handle_overflow_kept_keeps (items : List BacklogItem)
    (mc : Option Int) (strategy : OverflowStrategy) (d : Int) :
    ∀ y ∈ (handle_overflow items mc strategy d).1, ∃ x ∈ items, keeps x y := by
  intro y hy
  unfold handle_overflow at hy
  match mc with
  | none => exact ⟨y, hy, keeps_refl y⟩
  | some maxCap =>
    dsimp only at hy
    by_cases hle : ((items.length : Int) ≤ maxCap)
    · rw [if_pos hle] at hy
      exact ⟨y, hy, keeps_refl y⟩
    · rw [if_neg hle] at hy
      match strategy with
      | .reject =>
        have hsub := pySliceTo_subset maxCap (items.insertionSort (keyRelDesc reject_sort_key)) hy
        exact ⟨y, (List.mem_insertionSort _).mp hsub, keeps_refl y⟩
      | .defer =>
        rcases List.mem_map.mp hy with ⟨p, hp, rfl⟩
        exact ⟨p.2, mem_of_mem_enum hp, defer_mark_keeps d _ p⟩
      | .escalate =>
        rcases List.mem_map.mp hy with ⟨p, hp, rfl⟩
        exact ⟨p.2, mem_of_mem_enum hp, escalate_mark_keeps _ p⟩
      | .outsource =>
        have hy2 := List.mem_filter.mp hy
        rcases List.mem_map.mp hy2.1 with ⟨p, hp, rfl⟩
        exact ⟨p.2, mem_of_mem_enum hp, outsource_mark_keeps _ p⟩

theorem handle_overflow_removed_keeps (items : List BacklogItem)
    (mc : Option Int) (strategy : OverflowStrategy) :
    ∀ y ∈ handle_overflow_removed items mc strategy, ∃ x ∈ items, keeps x y := by
  intro y hy
  unfold handle_overflow_removed at hy
  match mc with
  | none => exact absurd hy (List.not_mem_nil y)
  | some maxCap =>
    dsimp only at hy
    by_cases hle : ((items.length : Int) ≤ maxCap)
    · rw [if_pos hle] at hy
      exact absurd hy (List.not_mem_nil y)
    · rw [if_neg hle] at hy
      match strategy with
      | .reject =>
        rcases List.mem_map.mp hy with ⟨x, hx, rfl⟩
        have hsub := pySliceFrom_subset maxCap (items.insertionSort (keyRelDesc reject_sort_key)) hx
        exact ⟨x, (List.mem_insertionSort _).mp hsub, keeps_status_update x _⟩
      | .defer => exact absurd hy (List.not_mem_nil y)
      | .escalate => exact absurd hy (List.not_mem_nil y)
      | .outsource =>
        rcases List.mem_map.mp hy with ⟨p, hp, rfl⟩
        have hsub := pySliceTo_subset _ (prioritySorted items) hp
        exact ⟨p.2, prioritySorted_snd_mem items p hsub, keeps_status_update p.2 _⟩

theorem check_sla_list_keeps (items : List BacklogItem) (d : Int) :
    ∀ y ∈ (check_sla_breaches items d).1, ∃ x ∈ items, keeps x y := by
  intro y hy
  rcases List.mem_map.mp hy with ⟨x, hx, rfl⟩
  exact ⟨x, hx, keeps_check_sla d x⟩

theorem track_compose {stItems newItems : List BacklogItem} {w z : BacklogItem}
    (h1 : (∃ x ∈ stItems, day_track x w) ∨ (∃ x ∈ newItems, keeps x w))
    (h2 : keeps w z) :
    (∃ x ∈ stItems, day_track x z) ∨ (∃ x ∈ newItems, keeps x z) := by
  rcases h1 with ⟨x, hx, ht⟩ | ⟨x, hx, ht⟩
  · exact Or.inl ⟨x, hx, day_track_keeps ht h2⟩
  · exact Or.inr ⟨x, hx, keeps_trans ht h2⟩

theorem run_day_track (req : BacklogPropagationRequest) (rand : Rand)
    (st : EngineState) (d : Int) (capacity : DailyCapacity)
    (hcap : dictLookup DailyCapacity.date req.daily_capacities d = some capacity)
    (y : BacklogItem)
    (hy : y ∈ (run_day req rand st d).state.backlog_items ∨
          y ∈ (run_day req rand st d).removed) :
    (∃ x ∈ st.backlog_items, day_track x y) ∨
    (∃ x ∈ run_day_new req rand st d, keeps x y) := by
  have hB : (match dictLookup DailyDemand.date req.daily_demands d with
      | some demand => process_new_items rand demand d req.profile st.item_counter
      | none => ([], st.item_counter)).1 = run_day_new req rand st d := by
    unfold run_day_new
    rw [hcap]
    rcases dictLookup DailyDemand.date req.daily_demands d with _ | dem <;> rfl
  have hstage1 : ∀ z ∈ List.map Prod.fst (List.map (age_item req d) st.backlog_items),
      ∃ x ∈ st.backlog_items, day_track x z := by
    intro z hz
    rcases List.mem_map.mp hz with ⟨pr, hpr, rfl⟩
    rcases List.mem_map.mp hpr with ⟨x, hx, rfl⟩
    exact ⟨x, hx, age_item_track req d x⟩
  have hE3 : ∀ z, z ∈ (apply_decay rand d
        (List.map Prod.fst (List.map (age_item req d) st.backlog_items))
        req.profile.decay_rate).1 ++ run_day_new req rand st d →
      (∃ x ∈ st.backlog_items, day_track x z) ∨
      (∃ x ∈ run_day_new req rand st d, keeps x z) := by
    intro z hz
    rw [List.mem_append] at hz
    rcases hz with hz | hz
    · exact Or.inl (hstage1 z (apply_decay_remaining_sub rand d _ _ z hz))
    · exact Or.inr ⟨z, hz, keeps_refl z⟩
  have hslaKeeps : ∀ (L : List BacklogItem) (w : BacklogItem),
      w ∈ (if req.enable_sla_tracking = true then check_sla_breaches L d else (L, 0)).1 →
      ∃ x ∈ L, keeps x w := by
    intro L w hw
    by_cases hs : req.enable_sla_tracking = true
    · rw [if_pos hs] at hw
      exact check_sla_list_keeps L d w hw
    · rw [if_neg hs] at hw
      exact ⟨w, hw, keeps_refl w⟩
  have hE4 : ∀ z, z ∈ (if req.enable_sla_tracking = true
        then check_sla_breaches ((apply_decay rand d
          (List.map Prod.fst (List.map (age_item req d) st.backlog_items))
          req.profile.decay_rate).1 ++ run_day_new req rand st d) d
        else ((apply_decay rand d
          (List.map Prod.fst (List.map (age_item req d) st.backlog_items))
          req.profile.decay_rate).1 ++ run_day_new req rand st d, 0)).1 →
      (∃ x ∈ st.backlog_items, day_track x z) ∨
      (∃ x ∈ run_day_new req rand st d, keeps x z) := by
    intro z hz
    rcases hslaKeeps _ z hz with ⟨w, hw, hk⟩
    exact track_compose (hE3 w hw) hk
  have hE5kept : ∀ z, z ∈ (resolve_items_full ((if req.enable_sla_tracking = true
        then check_sla_breaches ((apply_decay rand d
          (List.map Prod.fst (List.map (age_item req d) st.backlog_items))
          req.profile.decay_rate).1 ++ run_day_new req rand st d) d
        else ((apply_decay rand d
          (List.map Prod.fst (List.map (age_item req d) st.backlog_items))
          req.profile.decay_rate).1 ++ run_day_new req rand st d, 0)).1) capacity d).remaining_items →
      (∃ x ∈ st.backlog_items, day_track x z) ∨
      (∃ x ∈ run_day_new req rand st d, keeps x z) := by
    intro z hz
    exact hE4 z (resolve_remaining_sub _ capacity d z hz)
  simp only [run_day, hcap] at hy
  simp only [hB] at hy
  rcases hy with hy | hy
  · rcases List.mem_map.mp hy with ⟨w6, hw6, rfl⟩
    refine track_compose ?_ (keeps_prop_bump w6)
    rcases handle_overflow_kept_keeps _ _ _ _ w6 hw6 with ⟨w5, hw5, hk5⟩
    exact track_compose (hE5kept w5 hw5) hk5
  · rw [List.mem_append] at hy
    rcases hy with hy | hy
    · rw [List.mem_append] at hy
      rcases hy with hy | hy
      · rcases apply_decay_removed_keeps rand d _ _ y hy with ⟨w1, hw1, hk⟩
        exact track_compose (Or.inl (hstage1 w1 hw1)) hk
      · rcases resolve_resolved_keeps _ capacity d y hy with ⟨w4, hw4, hk⟩
        exact track_compose (hE4 w4 hw4) hk
    · rcases handle_overflow_removed_keeps _ _ _ y hy with ⟨w5, hw5, hk⟩
      exact track_compose (hE5kept w5 hw5) hk

theorem process_new_items_fresh (rand : Rand) (demand : DailyDemand) (d : Int)
    (profile : BacklogPropagationProfile) (counter : Nat) :
    ∀ x ∈ (process_new_items rand demand d profile counter).1,
      x.days_in_backlog = 0 ∧ x.created_date = d ∧ x.status = .pending ∧
      x.original_priority = x.priority := by
  have hinner : ∀ (lr : List Nat) (pr : Priority) (acc : List BacklogItem × Nat),
      (∀ x ∈ acc.1, x.days_in_backlog = 0 ∧ x.created_date = d ∧ x.status = .pending ∧
        x.original_priority = x.priority) →
      ∀ x ∈ (lr.foldl (fun (acc : List BacklogItem × Nat) _ =>
          (acc.1 ++ [mk_new_item rand d profile (acc.2 + 1) acc.1.length pr],
           acc.2 + 1)) acc).1,
        x.days_in_backlog = 0 ∧ x.created_date = d ∧ x.status = .pending ∧
        x.original_priority = x.priority := by
    intro lr
    induction lr with
    | nil => intro pr acc h; exact h
    | cons a t ih =>
      intro pr acc h
      rw [List.foldl_cons]
      apply ih
      intro x hx
      rw [List.mem_append] at hx
      rcases hx with hx | hx
      · exact h x hx
      · have hx2 : x = mk_new_item rand d profile (acc.2 + 1) acc.1.length pr := by
          simpa using hx
        subst hx2
        exact ⟨rfl, rfl, rfl, rfl⟩
  have houter : ∀ (l : List (Priority × Int)) (acc : List BacklogItem × Nat),
      (∀ x ∈ acc.1, x.days_in_backlog = 0 ∧ x.created_date = d ∧ x.status = .pending ∧
        x.original_priority = x.priority) →
      ∀ x ∈ (l.foldl (fun acc pc =>
          (List.range pc.2.toNat).foldl
            (fun (acc : List BacklogItem × Nat) _ =>
              (acc.1 ++ [mk_new_item rand d profile (acc.2 + 1) acc.1.length pc.1],
               acc.2 + 1)) acc) acc).1,
        x.days_in_backlog = 0 ∧ x.created_date = d ∧ x.status = .pending ∧
        x.original_priority = x.priority := by
    intro l
    induction l with
    | nil => intro acc h; exact h
    | cons a t ih =>
      intro acc h
      rw [List.foldl_cons]
      exact ih _ (hinner _ a.1 acc h)
  intro x hx
  exact houter demand.new_items_by_priority ([], counter)
    (by intro z hz; exact absurd hz (List.not_mem_nil z)) x hx

theorem run_day_new_fresh (req : BacklogPropagationRequest) (rand : Rand)
    (st : EngineState) (d : Int) :
    ∀ x ∈ run_day_new req rand st d,
      x.days_in_backlog = 0 ∧ x.created_date = d ∧ x.status = .pending ∧
      x.original_priority = x.priority := by
  intro x hx
  unfold run_day_new at hx
  rcases h1 : dictLookup DailyCapacity.date req.daily_capacities d with _ | cap
  · simp only [h1] at hx
    exact absurd hx (List.not_mem_nil x)
  · simp only [h1] at hx
    rcases h2 : dictLookup DailyDemand.date req.daily_demands d with _ | dem
    · simp only [h2] at hx
      exact absurd hx (List.not_mem_nil x)
    · simp only [h2] at hx
      exact process_new_items_fresh rand dem d req.profile st.item_counter x hx

theorem run_day_skip (req : BacklogPropagationRequest) (rand : Rand)
    (st : EngineState) (d : Int)
    (hcap : dictLookup DailyCapacity.date req.daily_capacities d = none) :
    run_day req rand st d = ⟨st, none, []⟩ := by
  simp [run_day, hcap]

theorem reqTrack_state_eval :
    (state_after reqTrack trivRand 1).backlog_items = [itemTrackAfter] := by
  norm_num [state_after, init_state, run_day, dictLookup, reqTrack, simpleCap, baseItem,
    itemTrackAfter, trivRand, age_item, apply_aging, apply_decay, process_new_items,
    check_sla_breaches, check_sla_single, sla_breach_cond, resolve_items_full,
    resolveSorted, List.insertionSort, List.orderedInsert, keyRelDesc, keyRelAsc, lexLe,
    resolve_sort_key, reject_sort_key, priority_sort_key, get_priority_order,
    resolve_step, capReached, handle_overflow, prioritySorted, pySliceTo,
    upgrade_priority, List.foldl, List.enum, List.filterMap]

/-- C3.  Across one processed day (a day with a capacity entry), every
item in the live list at the end of the day either descends from an item
of the previous day's end with identical frame fields and
`days_in_backlog` exactly one larger, or was created that day with
`days_in_backlog = 0`; and a day without a capacity entry leaves the
state — in particular every `days_in_backlog` — completely unchanged, so
the counter never decreases over the run. -/
theorem c3_days_in_backlog_step (req : BacklogPropagationRequest) (rand : Rand)
    (k : Nat) :
    (∀ capacity, dictLookup DailyCapacity.date req.daily_capacities
        (req.start_date + (k : Int)) = some capacity →
      ∀ y ∈ (state_after req rand (k + 1)).backlog_items,
        (∃ x ∈ (state_after req rand k).backlog_items,
          frame_eq x y ∧ y.days_in_backlog = x.days_in_backlog + 1) ∨
        (y.created_date = req.start_date + (k : Int) ∧ y.days_in_backlog = 0)) ∧
    (dictLookup DailyCapacity.date req.daily_capacities (req.start_date + (k : Int)) = none →
      state_after req rand (k + 1) = state_after req rand k) := by
  constructor
  · intro capacity hcap y hy
    have hy2 : y ∈ (run_day req rand (state_after req rand k)
        (req.start_date + (k : Int))).state.backlog_items := hy
    rcases run_day_track req rand (state_after req rand k) (req.start_date + (k : Int))
        capacity hcap y (Or.inl hy2) with ⟨x, hx, hdt⟩ | ⟨x, hx, hk⟩
    · exact Or.inl ⟨x, hx, hdt.1, hdt.2.2⟩
    · have hf := run_day_new_fresh req rand (state_after req rand k)
        (req.start_date + (k : Int)) x hx
      exact Or.inr ⟨by rw [hk.1.2.2.1, hf.2.1], by rw [hk.2.2, hf.1]⟩
  · intro hcap
    show (run_day req rand (state_after req rand k) (req.start_date + (k : Int))).state =
      state_after req rand k
    rw [run_day_skip req rand _ _ hcap]

/-- Witness for `c3_days_in_backlog_step` on the one-item one-day run
`reqTrack`. -/
theorem c3_days_witness :
    itemTrackAfter ∈ (state_after reqTrack trivRand 1).backlog_items ∧
    ((∃ x ∈ (state_after reqTrack trivRand 0).backlog_items,
        frame_eq x itemTrackAfter ∧
        itemTrackAfter.days_in_backlog = x.days_in_backlog + 1) ∨
      (itemTrackAfter.created_date = reqTrack.start_date + ((0 : Nat) : Int) ∧
        itemTrackAfter.days_in_backlog = 0)) := by
  have hmem : itemTrackAfter ∈ (state_after reqTrack trivRand 1).backlog_items := by
    rw [reqTrack_state_eval]
    exact List.mem_singleton_self itemTrackAfter
  refine ⟨hmem, ?_⟩
  exact (c3_days_in_backlog_step reqTrack trivRand 0).1 (simpleCap 0 0)
    (by norm_num [dictLookup, reqTrack, simpleCap]) itemTrackAfter hmem

theorem rank_le_critical {x y : BacklogItem}
    (hle : get_priority_order x.priority ≤ get_priority_order y.priority)
    (hc : x.priority = .critical) : y.priority = .critical := by
  apply critical_of_rank_ge
  calc (4 : Nat) = get_priority_order x.priority := by rw [hc]; rfl
    _ ≤ get_priority_order y.priority := hle

/-- C6.  Priority escalation is monotonic: every item live at a later
point of the simulation either descends (same frame fields) from an item
live at the earlier point whose priority rank is no larger — and an item
already critical stays critical — or descends, again with no rank
decrease and critical preserved, from an item created by the demand
stage of a day strictly between the two points (such an item was not yet
live at the earlier point). -/
theorem c6_priority_monotone (req : BacklogPropagationRequest) (rand : Rand)
    (k j : Nat) :
    ∀ y ∈ (state_after req rand (k + j)).backlog_items,
      (∃ x ∈ (state_after req rand k).backlog_items,
        frame_eq x y ∧
        get_priority_order x.priority ≤ get_priority_order y.priority ∧
        (x.priority = .critical → y.priority = .critical)) ∨
      (∃ i, k ≤ i ∧ i < k + j ∧ ∃ x ∈ created_on req rand i,
        frame_eq x y ∧
        get_priority_order x.priority ≤ get_priority_order y.priority ∧
        (x.priority = .critical → y.priority = .critical)) := by
  induction j with
  | zero =>
    intro y hy
    exact Or.inl ⟨y, hy, frame_eq_refl y, le_refl _, fun h => h⟩
  | succ n ih =>
    intro y hy
    rcases hcap : dictLookup DailyCapacity.date req.daily_capacities
        (req.start_date + ((k + n : Nat) : Int)) with _ | capacity
    · have hskip : state_after req rand (k + (n + 1)) = state_after req rand (k + n) := by
        show (run_day req rand (state_after req rand (k + n))
          (req.start_date + ((k + n : Nat) : Int))).state = state_after req rand (k + n)
        rw [run_day_skip req rand _ _ hcap]
      rw [hskip] at hy
      rcases ih y hy with h | ⟨i, hki, hilt, x, hx, hf, hle, hcrit⟩
      · exact Or.inl h
      · exact Or.inr ⟨i, hki, by omega, x, hx, hf, hle, hcrit⟩
    · have hy2 : y ∈ (run_day req rand (state_after req rand (k + n))
          (req.start_date + ((k + n : Nat) : Int))).state.backlog_items := hy
      rcases run_day_track req rand (state_after req rand (k + n))
          (req.start_date + ((k + n : Nat) : Int)) capacity hcap y (Or.inl hy2) with
        ⟨x, hx, hdt⟩ | ⟨x, hx, hk2⟩
      · rcases ih x hx with ⟨x0, hx0, hf, hle, hcrit⟩ |
          ⟨i, hki, hilt, x0, hx0, hf, hle, hcrit⟩
        · exact Or.inl ⟨x0, hx0, frame_eq_trans hf hdt.1, hle.trans hdt.2.1,
            fun hc0 => rank_le_critical (hle.trans hdt.2.1) hc0⟩
        · exact Or.inr ⟨i, hki, by omega, x0, hx0, frame_eq_trans hf hdt.1,
            hle.trans hdt.2.1, fun hc0 => rank_le_critical (hle.trans hdt.2.1) hc0⟩
      · exact Or.inr ⟨k + n, Nat.le_add_right k n, by omega, x, hx, hk2.1, hk2.2.1,
          fun hc0 => rank_le_critical hk2.2.1 hc0⟩

/-- Witness for `c6_priority_monotone` on the one-item one-day run
`reqTrack`. -/
theorem c6_priority_witness :
    itemTrackAfter ∈ (state_after reqTrack trivRand (0 + 1)).backlog_items ∧
    ((∃ x ∈ (state_after reqTrack trivRand 0).backlog_items,
        frame_eq x itemTrackAfter ∧
        get_priority_order x.priority ≤ get_priority_order itemTrackAfter.priority ∧
        (x.priority = .critical → itemTrackAfter.priority = .critical)) ∨
      (∃ i, 0 ≤ i ∧ i < 0 + 1 ∧ ∃ x ∈ created_on reqTrack trivRand i,
        frame_eq x itemTrackAfter ∧
        get_priority_order x.priority ≤ get_priority_order itemTrackAfter.priority ∧
        (x.priority = .critical → itemTrackAfter.priority = .critical))) := by
  have hmem : itemTrackAfter ∈ (state_after reqTrack trivRand (0 + 1)).backlog_items := by
    rw [reqTrack_state_eval]
    exact List.mem_singleton_self itemTrackAfter
  exact ⟨hmem, c6_priority_monotone reqTrack trivRand 0 1 itemTrackAfter hmem⟩

/-- C10.  The fields `id`, `original_priority`, `created_date`,
`complexity` and `estimated_effort_minutes` are never written by any
simulation stage: every item live at any point of the run — and every
item at the moment it is removed from the live list — carries exactly
the frame-field values of an initial item or of an item as created by
some day's demand stage. -/
theorem c10_frame_fields_immutable (req : BacklogPropagationRequest) (rand : Rand)
    (j : Nat) :
    ∀ y, (y ∈ (state_after req rand j).backlog_items ∨
          ∃ i, i < j ∧ y ∈ removed_on req rand i) →
      (∃ x ∈ req.initial_backlog_items, frame_eq x y) ∨
      (∃ i, i < j ∧ ∃ x ∈ created_on req rand i, frame_eq x y) := by
  induction j with
  | zero =>
    intro y hy
    rcases hy with hy | ⟨i, hi, _⟩
    · exact Or.inl ⟨y, hy, frame_eq_refl y⟩
    · omega
  | succ n ih =>
    have hlive : ∀ y, y ∈ (run_day req rand (state_after req rand n)
          (req.start_date + (n : Int))).state.backlog_items ∨
          y ∈ (run_day req rand (state_after req rand n)
            (req.start_date + (n : Int))).removed →
        (∃ x ∈ req.initial_backlog_items, frame_eq x y) ∨
        (∃ i, i < n + 1 ∧ ∃ x ∈ created_on req rand i, frame_eq x y) := by
      intro y hy
      rcases hcap : dictLookup DailyCapacity.date req.daily_capacities
          (req.start_date + (n : Int)) with _ | capacity
      · rw [run_day_skip req rand _ _ hcap] at hy
        rcases hy with hy | hy
        · rcases ih y (Or.inl hy) with h | ⟨i, hi, hx⟩
          · exact Or.inl h
          · exact Or.inr ⟨i, Nat.lt_succ_of_lt hi, hx⟩
        · exact absurd hy (List.not_mem_nil y)
      · rcases run_day_track req rand (state_after req rand n)
            (req.start_date + (n : Int)) capacity hcap y hy with
          ⟨x, hx, hdt⟩ | ⟨x, hx, hk⟩
        · rcases ih x (Or.inl hx) with ⟨x0, hx0, hf⟩ | ⟨i, hi, x0, hx0, hf⟩
          · exact Or.inl ⟨x0, hx0, frame_eq_trans hf hdt.1⟩
          · exact Or.inr ⟨i, Nat.lt_succ_of_lt hi, x0, hx0, frame_eq_trans hf hdt.1⟩
        · exact Or.inr ⟨n, Nat.lt_succ_self n, x, hx, hk.1⟩
    intro y hy
    rcases hy with hy | ⟨i, hi, hrem⟩
    · exact hlive y (Or.inl hy)
    · rcases Nat.lt_succ_iff_lt_or_eq.mp hi with hi2 | rfl
      · rcases ih y (Or.inr ⟨i, hi2, hrem⟩) with h | ⟨i2, hi2b, hx⟩
        · exact Or.inl h
        · exact Or.inr ⟨i2, Nat.lt_succ_of_lt hi2b, hx⟩
      · exact hlive y (Or.inr hrem)

/-- Witness for `c10_frame_fields_immutable` on the one-item one-day run
`reqTrack`. -/
theorem c10_frame_witness :
    itemTrackAfter ∈ (state_after reqTrack trivRand 1).backlog_items ∧
    ((∃ x ∈ reqTrack.initial_backlog_items, frame_eq x itemTrackAfter) ∨
      (∃ i, i < 1 ∧ ∃ x ∈ created_on reqTrack trivRand i, frame_eq x itemTrackAfter)) := by
  have hmem : itemTrackAfter ∈ (state_after reqTrack trivRand 1).backlog_items := by
    rw [reqTrack_state_eval]
    exact List.mem_singleton_self itemTrackAfter
  exact ⟨hmem, c10_frame_fields_immutable reqTrack trivRand 1 itemTrackAfter (Or.inl hmem)⟩

end BacklogSim
